import Mathlib

/-!
Verification of the GT-proj record-management service.

The definitions below are a shallow embedding of the TypeScript sources:
- `src/src/services/userService.ts` (query engine and in-memory store),
- `src/src/controllers/userController.ts` (create-user validation),
- `src/src/index.ts` (CSV bulk-ingest upsert pipeline),
- `src/unnamed/part_004` (Prisma-based controller variant with defaulted
  salary bounds).

JavaScript numbers are modelled as rationals (no NaN/Infinity values), ids
as naturals, and JS truthiness of the dynamic request values by explicit
case analysis. `String.prototype.localeCompare` is modelled as the
code-point lexicographic order on the character list of the string: a total
order, as the comparator must be.
-/

namespace GTProj

/-- A stored user record (`User` in `types.ts`): id, name, salary.
The service renders ids as decimal strings of a counter; the counter value
itself is used here. -/
structure User where
  id : ℕ
  name : String
  salary : ℚ
deriving DecidableEq

/-- Sort keys accepted by the query engine (`'NAME' | 'SALARY'`). -/
inductive SortKey
  | NAME
  | SALARY
deriving DecidableEq

/-- `UserQueryParams` from `types.ts`: every field optional, `none`
modelling an absent (`undefined`) query parameter. -/
structure UserQueryParams where
  min : Option ℚ := none
  max : Option ℚ := none
  offset : Option ℕ := none
  pageSize : Option ℕ := none
  sort : Option SortKey := none
deriving DecidableEq

/-- Result of `UserService.getUsers`: the page plus the pre-pagination
count. -/
structure QueryResult where
  users : List User
  total : ℕ
deriving DecidableEq

/-- The in-memory singleton state of `UserService`: the `users` array and
the `nextId` counter. -/
structure Store where
  users : List User
  nextId : ℕ
deriving DecidableEq

/-- `userService.ts` lines 38-40: `filter(user => user.salary >= params.min)`
when `params.min !== undefined`, otherwise the list is left alone. -/
def filterMin (mn : Option ℚ) (l : List User) : List User :=
  match mn with
  | some m => l.filter (fun u => decide (m ≤ u.salary))
  | none => l

/-- `userService.ts` lines 41-43: `filter(user => user.salary <= params.max)`
when `params.max !== undefined`. -/
def filterMax (mx : Option ℚ) (l : List User) : List User :=
  match mx with
  | some m => l.filter (fun u => decide (u.salary ≤ m))
  | none => l

/-- The filtered set of `getUsers`: min filter then max filter applied to a
copy of the store's array. -/
def filteredOf (store : Store) (params : UserQueryParams) : List User :=
  filterMax params.max (filterMin params.min store.users)

/-- Comparator model for `a.name.localeCompare(b.name)` sorting: code-point
lexicographic order on the characters (a total order standing in for the
locale collation). -/
def nameLe (a b : User) : Bool :=
  decide (a.name.data ≤ b.name.data)

/-- Comparator model for `a.salary - b.salary` sorting: ascending by
salary. -/
def salaryLe (a b : User) : Bool :=
  decide (a.salary ≤ b.salary)

/-- `userService.ts` lines 46-55: `filteredUsers.sort(...)` run only when
`params.sort` is supplied. `Array.prototype.sort` is stable (ES2019), hence
the merge sort. -/
def sortedOf (store : Store) (params : UserQueryParams) : List User :=
  match params.sort with
  | some SortKey.NAME => (filteredOf store params).mergeSort nameLe
  | some SortKey.SALARY => (filteredOf store params).mergeSort salaryLe
  | none => filteredOf store params

/-- `userService.ts` lines 58-62: `const offset = params.offset || 0` and
`pageSize ? slice(offset, offset + pageSize) : slice(offset)`. A supplied
`pageSize` of `0` is falsy in JS, so it selects the no-limit branch. -/
def pageOf (store : Store) (params : UserQueryParams) : List User :=
  let off := params.offset.getD 0
  match params.pageSize with
  | some ps =>
      if ps = 0 then (sortedOf store params).drop off
      else ((sortedOf store params).drop off).take ps
  | none => (sortedOf store params).drop off

/-- `UserService.getUsers` (`userService.ts` lines 34-68): returns the
paginated page and `total = filteredUsers.length`. -/
def getUsers (store : Store) (params : UserQueryParams) : QueryResult :=
  { users := pageOf store params, total := (filteredOf store params).length }

/-- The `getUsers` method viewed as a state transformer on the service
singleton: the body copies `this.users` (`[...this.users]`) before
filtering and sorting and never assigns `this.users` or `this.nextId`, so
the state it leaves behind is built from the unchanged fields. -/
def getUsersCall (store : Store) (params : UserQueryParams) :
    QueryResult × Store :=
  (getUsers store params, { users := store.users, nextId := store.nextId })

/-- `UserService.createUser` (`userService.ts` lines 71-79): append a record
with id `nextId`, then increment `nextId`. -/
def serviceCreateUser (store : Store) (name : String) (salary : ℚ) :
    User × Store :=
  let newUser : User := { id := store.nextId, name := name, salary := salary }
  (newUser, { users := store.users ++ [newUser], nextId := store.nextId + 1 })

/-- The record-level salary predicate the spec's filter describes, with an
absent bound imposing no constraint (exactly the two conditional filters of
`getUsers` fused into one pass). -/
def matchesFilter (mn mx : Option ℚ) (u : User) : Bool :=
  (match mn with
   | some m => decide (m ≤ u.salary)
   | none => true)
  && (match mx with
      | some m => decide (u.salary ≤ m)
      | none => true)

/-- A raw CSV row as delivered by `csv-parser` to the upload handler in
`index.ts`: the `name` and `salary` column values. A missing or empty
column is modelled as `""`, both being falsy in the handler's
`!data.name || !data.salary` check. -/
structure RawRow where
  name : String
  salary : String
deriving DecidableEq

/-- A validated row pushed onto `results` by the upload handler: the name
and the parsed numeric salary. -/
structure PRow where
  name : String
  salary : ℚ
deriving DecidableEq

/-- Numeric value of a digit string, most significant first. -/
def natOfDigits (l : List Char) : ℕ :=
  l.foldl (fun a c => 10 * a + (c.toNat - 48)) 0

/-- Whitespace skipped by `parseFloat` before the number. -/
def isWsChar (c : Char) : Bool :=
  c == ' ' || c == '\t' || c == '\n' || c == '\r'

/-- Model of JavaScript `parseFloat` on the grammar
whitespace, optional sign, integer digits, optional point and fraction
digits; any trailing characters are ignored, and the result is `none`
(`NaN`) when no digit is found. Exponent, `Infinity` and hexadecimal forms
are not modelled. -/
def parseFloat (s : String) : Option ℚ :=
  let cs := s.data.dropWhile isWsChar
  let sgnRest : ℤ × List Char :=
    match cs with
    | '-' :: r => (-1, r)
    | '+' :: r => (1, r)
    | r => (1, r)
  let intDigits := sgnRest.2.takeWhile Char.isDigit
  let rest := sgnRest.2.dropWhile Char.isDigit
  let fracDigits :=
    match rest with
    | '.' :: r => r.takeWhile Char.isDigit
    | _ => []
  if intDigits = [] ∧ fracDigits = [] then none
  else
    some (mkRat
      (sgnRest.1 *
        (natOfDigits intDigits * 10 ^ fracDigits.length + natOfDigits fracDigits))
      (10 ^ fracDigits.length))

/-- Per-row work of the upload handler's `data` callback (`index.ts` lines
95-112): reject the whole batch when a field is missing/empty or the salary
does not parse; otherwise accept the row when its salary is non-negative
and silently skip it when negative. -/
def checkRow (r : RawRow) : Except String (Option PRow) :=
  if r.name = "" ∨ r.salary = "" then
    Except.error "Invalid CSV format: missing required fields"
  else
    match parseFloat r.salary with
    | none => Except.error "Invalid salary format"
    | some salary =>
        if 0 ≤ salary then Except.ok (some { name := r.name, salary := salary })
        else Except.ok none

/-- The streaming phase of the upload handler: every row is checked and the
accepted rows collected, and the first rejection settles the surrounding
promise with that error before any upsert runs. -/
def readRows : List RawRow → Except String (List PRow)
  | [] => Except.ok []
  | r :: rs =>
      match checkRow r with
      | Except.error e => Except.error e
      | Except.ok none => readRows rs
      | Except.ok (some p) =>
          match readRows rs with
          | Except.error e => Except.error e
          | Except.ok l => Except.ok (p :: l)

/-- One iteration of the upsert loop (`index.ts` lines 119-137):
`findFirst` by exact name, then either `update` the found record's salary
by its unique id or `create` a new record with a fresh id. -/
def upsertOne (store : Store) (p : PRow) : Store :=
  match store.users.find? (fun u => u.name == p.name) with
  | some existingUser =>
      { store with
          users := store.users.map (fun u =>
            if u.id = existingUser.id then { u with salary := p.salary } else u) }
  | none =>
      { users := store.users ++ [{ id := store.nextId, name := p.name, salary := p.salary }]
      , nextId := store.nextId + 1 }

/-- The `for (const user of results)` loop of the upload handler. -/
def processResults (store : Store) (l : List PRow) : Store :=
  l.foldl upsertOne store

/-- The whole `/upload` handler on an already-parsed row list: read and
validate the stream, and only when that succeeds run the upsert loop; on a
streaming failure the store is untouched and the error is reported. -/
def uploadCsv (store : Store) (rows : List RawRow) :
    Store × Except String (List PRow) :=
  match readRows rows with
  | Except.error e => (store, Except.error e)
  | Except.ok l => (processResults store l, Except.ok l)

/-- Structural malformation of a raw row: missing/empty `name` or `salary`,
or a salary that does not parse as a number. -/
def rowMalformed (r : RawRow) : Bool :=
  r.name == "" || r.salary == "" || (parseFloat r.salary).isNone

/-- The accepted payload of a structurally well-formed row: `some` parsed
row when the salary is non-negative, `none` when the row is skipped or
malformed. -/
def acceptedRow (r : RawRow) : Option PRow :=
  if r.name = "" ∨ r.salary = "" then none
  else
    match parseFloat r.salary with
    | none => none
    | some salary =>
        if 0 ≤ salary then some { name := r.name, salary := salary } else none

/-- A dynamically typed JavaScript request-body value, as far as the create
validation inspects one: a string, a number, `undefined` (an absent field),
or any other defined value (object, boolean, `null`, ...). `NaN` is not
representable in the rational model. -/
inductive JsVal
  | str (s : String)
  | num (q : ℚ)
  | undef
  | other
deriving DecidableEq

/-- `createUser` of `userController.ts` (lines 102-144): reject unless
`name` is a truthy string and `salary` a truthy number, then delegate to
`userService.createUser`. Truthiness makes the empty string and the number
`0` fail their checks; every non-string `name` and non-number `salary`
fails its `typeof` check (non-string falsy values fail the truthiness check
first, with the same error). -/
def createUser (store : Store) (name salary : JsVal) :
    Except String (User × Store) :=
  match name with
  | JsVal.str s =>
      if s = "" then Except.error "Name is required and must be a string"
      else
        match salary with
        | JsVal.num q =>
            if q = 0 then Except.error "Salary is required and must be a number"
            else Except.ok (serviceCreateUser store s q)
        | _ => Except.error "Salary is required and must be a number"
  | _ => Except.error "Name is required and must be a string"

/-- JavaScript `a || b` on an optional number: the default is used when the
value is absent, and also when it is `0`, since `0` is falsy. -/
def jsOrQ (v : Option ℚ) (d : ℚ) : ℚ :=
  match v with
  | some q => if q = 0 then d else q
  | none => d

/-- JavaScript `a || b` on an optional natural number. -/
def jsOrN (v : Option ℕ) (d : ℕ) : ℕ :=
  match v with
  | some n => if n = 0 then d else n
  | none => d

/-- Query shape of the Prisma-based variant (`part_004`): `limit` instead
of `pageSize`. -/
structure PrismaQuery where
  min : Option ℚ := none
  max : Option ℚ := none
  sort : Option SortKey := none
  offset : Option ℕ := none
  limit : Option ℕ := none
deriving DecidableEq

/-- `UserController.getUsers` of `part_004`: Prisma `findMany` with
`salary` between `query.min || 0` and `query.max || 4000`, ascending
`orderBy`, `skip: query.offset || 0` and `take: query.limit || 10`. -/
def controllerGetUsers (db : List User) (query : PrismaQuery) : List PRow :=
  let lo := jsOrQ query.min 0
  let hi := jsOrQ query.max 4000
  let filtered := db.filter (fun u => decide (lo ≤ u.salary) && decide (u.salary ≤ hi))
  let ordered :=
    match query.sort with
    | some SortKey.NAME => filtered.mergeSort nameLe
    | some SortKey.SALARY => filtered.mergeSort salaryLe
    | none => filtered
  let paged := (ordered.drop (jsOrN query.offset 0)).take (jsOrN query.limit 10)
  paged.map (fun u => { name := u.name, salary := u.salary })

/-- The seeded store of the simpler service variant, also Scenario A of the
spec: John Doe 50000, Jane Smith 75000, Bob Johnson 65000. -/
def storeA : Store :=
  { users :=
      [ { id := 1, name := "John Doe", salary := 50000 }
      , { id := 2, name := "Jane Smith", salary := 75000 }
      , { id := 3, name := "Bob Johnson", salary := 65000 } ]
  , nextId := 4 }

/-- The two sequential conditional filters equal one filter by the fused
salary predicate. -/
theorem filteredOf_eq_filter (store : Store) (params : UserQueryParams) :
    filteredOf store params
      = store.users.filter (matchesFilter params.min params.max) := by
  cases hmn : params.min <;> cases hmx : params.max
  case none.none =>
    simp [filteredOf, filterMin, filterMax, hmn, hmx,
      show matchesFilter none none = fun _ => true from rfl]
  case none.some M =>
    have h : matchesFilter none (some M) = fun u => decide (u.salary ≤ M) := rfl
    simp [filteredOf, filterMin, filterMax, hmn, hmx, h]
  case some.none m =>
    have h : matchesFilter (some m) none = fun u => decide (m ≤ u.salary) := by
      funext u
      simp [matchesFilter]
    simp [filteredOf, filterMin, filterMax, hmn, hmx, h]
  case some.some m M =>
    have h : matchesFilter (some m) (some M)
        = fun u => decide (m ≤ u.salary) && decide (u.salary ≤ M) := rfl
    simp [filteredOf, filterMin, filterMax, hmn, hmx, h, List.filter_filter,
      Bool.and_comm]

theorem salaryLe_trans (a b c : User) (h1 : salaryLe a b = true)
    (h2 : salaryLe b c = true) : salaryLe a c = true := by
  simp only [salaryLe, decide_eq_true_eq] at h1 h2 ⊢
  exact le_trans h1 h2

theorem salaryLe_total (a b : User) : (salaryLe a b || salaryLe b a) = true := by
  simp only [salaryLe, Bool.or_eq_true, decide_eq_true_eq]
  exact le_total a.salary b.salary

theorem nameLe_trans (a b c : User) (h1 : nameLe a b = true)
    (h2 : nameLe b c = true) : nameLe a c = true := by
  simp only [nameLe, decide_eq_true_eq] at h1 h2 ⊢
  exact le_trans h1 h2

theorem nameLe_total (a b : User) : (nameLe a b || nameLe b a) = true := by
  simp only [nameLe, Bool.or_eq_true, decide_eq_true_eq]
  exact le_total a.name.data b.name.data

/-- The returned page is a sublist of the filtered-and-sorted sequence. -/
theorem pageOf_sublist (store : Store) (params : UserQueryParams) :
    (pageOf store params).Sublist (sortedOf store params) := by
  unfold pageOf
  cases params.pageSize with
  | none => exact List.drop_sublist _ _
  | some ps =>
      by_cases h : ps = 0
      · simpa [h] using List.drop_sublist (params.offset.getD 0) (sortedOf store params)
      · simpa [h] using
          ((List.take_sublist ps _).trans
            (List.drop_sublist (params.offset.getD 0) (sortedOf store params)))

/-- A failed stream-validation phase leaves the store exactly as it was:
the upsert loop runs only after the surrounding `await` succeeds. -/
theorem uploadCsv_fst_of_error (store : Store) (rows : List RawRow) (e : String)
    (h : (uploadCsv store rows).2 = Except.error e) :
    (uploadCsv store rows).1 = store := by
  unfold uploadCsv at h ⊢
  cases hr : readRows rows with
  | error e2 => simp [hr]
  | ok l =>
      rw [hr] at h
      exact Except.noConfusion h

/-- A structurally well-formed row is read as its accepted payload. -/
theorem checkRow_ok_of_wf (r : RawRow) (h : rowMalformed r = false) :
    checkRow r = Except.ok (acceptedRow r) := by
  have hb : (¬ r.name = "" ∧ ¬ r.salary = "")
      ∧ (parseFloat r.salary).isSome = true := by
    unfold rowMalformed at h
    simpa [Bool.or_eq_false_iff] using h
  have hne : ¬(r.name = "" ∨ r.salary = "") := by
    simp [hb.1.1, hb.1.2]
  obtain ⟨q, hq⟩ := Option.isSome_iff_exists.mp hb.2
  by_cases h0 : 0 ≤ q <;> simp [checkRow, acceptedRow, hne, hq, h0]

/-- A structurally malformed row is rejected with a batch-terminating
error. -/
theorem checkRow_error_of_malformed (r : RawRow) (h : rowMalformed r = true) :
    ∃ e, checkRow r = Except.error e := by
  by_cases hne : r.name = "" ∨ r.salary = ""
  · refine ⟨"Invalid CSV format: missing required fields", ?_⟩
    simp [checkRow, hne]
  · have h3 : (parseFloat r.salary).isNone = true := by
      unfold rowMalformed at h
      rcases Bool.or_eq_true_iff.mp h with h12 | h3
      · rcases Bool.or_eq_true_iff.mp h12 with h1 | h2
        · exact absurd (by simpa using h1) (not_or.mp hne).1
        · exact absurd (by simpa using h2) (not_or.mp hne).2
      · exact h3
    have hp : parseFloat r.salary = none := Option.isNone_iff_eq_none.mp h3
    refine ⟨"Invalid salary format", ?_⟩
    simp [checkRow, hne, hp]

/-- When every row is structurally well-formed, the streaming phase
succeeds and collects exactly the non-negative-salary rows, in order. -/
theorem readRows_eq_ok (rows : List RawRow)
    (h : ∀ r ∈ rows, rowMalformed r = false) :
    readRows rows = Except.ok (rows.filterMap acceptedRow) := by
  induction rows with
  | nil => rfl
  | cons r rs ih =>
      have hr := checkRow_ok_of_wf r (h r (by simp))
      have hrs := ih (fun x hx => h x (by simp [hx]))
      cases ha : acceptedRow r with
      | none => simp [readRows, hr, ha, hrs, List.filterMap_cons]
      | some p => simp [readRows, hr, ha, hrs, List.filterMap_cons]

/-- The streaming phase fails exactly when some row is structurally
malformed. -/
theorem readRows_error_iff (rows : List RawRow) :
    (∃ e, readRows rows = Except.error e) ↔ ∃ r ∈ rows, rowMalformed r = true := by
  induction rows with
  | nil => simp [readRows]
  | cons r rs ih =>
      by_cases hm : rowMalformed r = true
      · obtain ⟨e, he⟩ := checkRow_error_of_malformed r hm
        exact iff_of_true ⟨e, by simp [readRows, he]⟩ ⟨r, by simp, hm⟩
      · have hmf : rowMalformed r = false := by simpa using hm
        have hr := checkRow_ok_of_wf r hmf
        cases ha : acceptedRow r with
        | none =>
            simp only [readRows, hr, ha]
            rw [ih]
            constructor
            · rintro ⟨x, hx, hxm⟩
              exact ⟨x, by simp [hx], hxm⟩
            · rintro ⟨x, hx, hxm⟩
              rcases (by simpa using hx : x = r ∨ x ∈ rs) with rfl | hx2
              · exact absurd hxm (by simp [hmf])
              · exact ⟨x, hx2, hxm⟩
        | some p =>
            simp only [readRows, hr, ha]
            cases hrs : readRows rs with
            | error e2 =>
                refine iff_of_true ⟨e2, rfl⟩ ?_
                obtain ⟨x, hx, hxm⟩ := ih.mp ⟨e2, hrs⟩
                exact ⟨x, by simp [hx], hxm⟩
            | ok l =>
                refine iff_of_false ?_ ?_
                · rintro ⟨e2, he2⟩
                  exact Except.noConfusion he2
                · rintro ⟨x, hx, hxm⟩
                  rcases (by simpa using hx : x = r ∨ x ∈ rs) with rfl | hx2
                  · exact absurd hxm (by simp [hmf])
                  · obtain ⟨e2, he2⟩ := ih.mpr ⟨x, hx2, hxm⟩
                    rw [hrs] at he2
                    exact Except.noConfusion he2

/-- The Prisma-based controller variant (`part_004`) really does bound the
salary by 4000 when `max` is absent: every returned row respects the
defaulted upper bound. -/
theorem controllerGetUsers_absent_max (db : List User) (query : PrismaQuery)
    (h : query.max = none) :
    ∀ p ∈ controllerGetUsers db query, p.salary ≤ 4000 := by
  intro p hp
  simp only [controllerGetUsers, h, jsOrQ] at hp
  obtain ⟨u, hu, hup⟩ := List.mem_map.mp hp
  have hu2 := List.mem_of_mem_drop (List.mem_of_mem_take hu)
  have humem : u ∈ db.filter
      (fun v => decide (jsOrQ query.min 0 ≤ v.salary) && decide (v.salary ≤ 4000)) := by
    cases hs : query.sort with
    | none => rw [hs] at hu2; simpa [jsOrQ] using hu2
    | some k =>
        cases k with
        | NAME =>
            rw [hs] at hu2
            have := (List.mergeSort_perm _ nameLe).mem_iff.mp hu2
            simpa [jsOrQ] using this
        | SALARY =>
            rw [hs] at hu2
            have := (List.mergeSort_perm _ salaryLe).mem_iff.mp hu2
            simpa [jsOrQ] using this
  have hle : u.salary ≤ 4000 := by
    have := (List.mem_filter.mp humem).2
    simpa using (Bool.and_elim_right this)
  rw [← hup]
  exact hle

/-- C1: for every store state and query, the `total` returned by `getUsers`
is the number of store records satisfying the salary filter; with both
bounds supplied it is the count of records with `min ≤ salary ≤ max`; and
it does not change when `offset` or `pageSize` are varied with the filter
held fixed. -/
theorem c1_total_counts_filtered (store : Store) (params : UserQueryParams) :
    ((getUsers store params).total
        = (store.users.filter (matchesFilter params.min params.max)).length)
    ∧ (∀ m mx, params.min = some m → params.max = some mx →
        (getUsers store params).total
          = (store.users.filter
              (fun u => decide (m ≤ u.salary) && decide (u.salary ≤ mx))).length)
    ∧ (∀ o ps,
        (getUsers store { params with offset := o, pageSize := ps }).total
          = (getUsers store params).total) := by
  refine ⟨?_, ?_, ?_⟩
  · show (filteredOf store params).length = _
    rw [filteredOf_eq_filter]
  · intro m mx hm hmx
    show (filteredOf store params).length = _
    rw [filteredOf_eq_filter, hm, hmx]
    rfl
  · intro o ps
    rfl

/-- Witness for C1 at Scenario A: with bounds 0 and 70000 supplied, the
total is the filtered count, namely 2. -/
theorem c1_witness :
    (getUsers storeA { min := some 0, max := some 70000 }).total = 2
    ∧ (getUsers storeA { min := some 0, max := some 70000 }).total
        = (storeA.users.filter
            (fun u => decide ((0 : ℚ) ≤ u.salary) && decide (u.salary ≤ 70000))).length :=
  ⟨by decide,
   (c1_total_counts_filtered storeA { min := some 0, max := some 70000 }).2.1
     0 70000 rfl rfl⟩

/-- C2: the claim says an absent `maxSalary` behaves as 4000, but
`UserService.getUsers` applies no upper bound when `max` is undefined: on a
store holding one record with salary 5000 and a query with every parameter
absent, the record is returned and counted, although 5000 exceeds 4000. -/
theorem c2_absent_max_unbounded :
    (getUsers ⟨[⟨1, "A", 5000⟩], 2⟩ {}).users = [⟨1, "A", 5000⟩]
    ∧ (getUsers ⟨[⟨1, "A", 5000⟩], 2⟩ {}).total = 1
    ∧ (4000 : ℚ) < 5000 :=
  ⟨by decide, by decide, by decide⟩

/-- C10: `getUsers` has no side effects: the service state after a call is
the state before it, for every store and every query. -/
theorem c10_getUsers_no_side_effects (store : Store) (params : UserQueryParams) :
    (getUsersCall store params).2 = store := rfl

/-- C8: with `sort = SALARY` the salaries of the returned page are
non-decreasing, and with `sort = NAME` the names are non-decreasing in the
total lexicographic order used by the comparator. -/
theorem c8_sorted_pages (store : Store) (params : UserQueryParams) :
    (params.sort = some SortKey.SALARY →
       (getUsers store params).users.Pairwise (fun a b => a.salary ≤ b.salary))
    ∧ (params.sort = some SortKey.NAME →
       (getUsers store params).users.Pairwise
         (fun a b => a.name.data ≤ b.name.data)) := by
  constructor
  · intro h
    have hs : (sortedOf store params).Pairwise (fun a b => salaryLe a b = true) := by
      simp only [sortedOf, h]
      exact List.sorted_mergeSort salaryLe_trans salaryLe_total _
    have hp : (pageOf store params).Pairwise (fun a b => salaryLe a b = true) :=
      List.Pairwise.sublist (pageOf_sublist store params) hs
    exact hp.imp (fun hab => by simpa [salaryLe] using hab)
  · intro h
    have hs : (sortedOf store params).Pairwise (fun a b => nameLe a b = true) := by
      simp only [sortedOf, h]
      exact List.sorted_mergeSort nameLe_trans nameLe_total _
    have hp : (pageOf store params).Pairwise (fun a b => nameLe a b = true) :=
      List.Pairwise.sublist (pageOf_sublist store params) hs
    exact hp.imp (fun hab => by simpa [nameLe] using hab)

/-- Witness for C8: the salary-sorted page over Scenario A is pairwise
non-decreasing in salary. -/
theorem c8_witness :
    List.Pairwise (fun a b => a.salary ≤ b.salary)
      ((getUsers storeA { sort := some SortKey.SALARY }).users) :=
  (c8_sorted_pages storeA { sort := some SortKey.SALARY }).1 rfl

/-- C7 corrected: a supplied positive `pageSize` caps the page at
`pageSize` records taken contiguously from `offset`; an absent `pageSize`
yields the remainder from `offset`; but a supplied `pageSize` of `0` is
falsy and also yields the whole remainder, not an empty page. -/
theorem c7_pagination (store : Store) (params : UserQueryParams) (ps : ℕ) :
    (params.pageSize = some ps → ps ≠ 0 →
       (getUsers store params).users
           = ((sortedOf store params).drop (params.offset.getD 0)).take ps
         ∧ (getUsers store params).users.length ≤ ps)
    ∧ (params.pageSize = none →
       (getUsers store params).users
         = (sortedOf store params).drop (params.offset.getD 0))
    ∧ (params.pageSize = some 0 →
       (getUsers store params).users
         = (sortedOf store params).drop (params.offset.getD 0)) := by
  refine ⟨?_, ?_, ?_⟩
  · intro h hne
    constructor
    · show pageOf store params = _
      simp [pageOf, h, hne]
    · show (pageOf store params).length ≤ ps
      simp only [pageOf, h, if_neg hne]
      exact List.length_take_le ps _
  · intro h
    show pageOf store params = _
    simp [pageOf, h]
  · intro h
    show pageOf store params = _
    simp [pageOf, h]

/-- Counterexample to C7 as stated: with `pageSize = 0` supplied, the page
is not empty — a one-record store yields a one-record page. -/
theorem c7_counterexample :
    ({ pageSize := some 0 } : UserQueryParams).pageSize = some 0
    ∧ (getUsers ⟨[⟨1, "A", 100⟩], 2⟩ { pageSize := some 0 }).users.length = 1 :=
  ⟨rfl, by decide⟩

/-- Witness for C7: `pageSize = 1` returns the one-element prefix from
offset 0 and respects the cap. -/
theorem c7_witness :
    ((getUsers ⟨[⟨1, "A", 100⟩], 2⟩ { pageSize := some 1 }).users
        = ((sortedOf ⟨[⟨1, "A", 100⟩], 2⟩ { pageSize := some 1 }).drop 0).take 1)
    ∧ (getUsers ⟨[⟨1, "A", 100⟩], 2⟩ { pageSize := some 1 }).users.length ≤ 1 :=
  (c7_pagination ⟨[⟨1, "A", 100⟩], 2⟩ { pageSize := some 1 } 1).1 rfl (by decide)

/-- C3: upserting an accepted row whose name exactly matches an existing
record keeps the record count and the matched record's id, changing only
its salary; a row matching no record appends exactly one new record with
the freshly assigned id, which no existing record carries. -/
theorem c3_upsert_semantics (store : Store) (r : PRow) :
    (∀ ex, store.users.find? (fun u => u.name == r.name) = some ex →
       ex.name = r.name
       ∧ (upsertOne store r).users.length = store.users.length
       ∧ (upsertOne store r).nextId = store.nextId
       ∧ (upsertOne store r).users
           = store.users.map (fun u =>
               if u.id = ex.id then { u with salary := r.salary } else u))
    ∧ (store.users.find? (fun u => u.name == r.name) = none →
       (∀ u ∈ store.users, u.name ≠ r.name)
       ∧ (upsertOne store r).users
           = store.users ++ [{ id := store.nextId, name := r.name, salary := r.salary }]
       ∧ (upsertOne store r).nextId = store.nextId + 1
       ∧ ((∀ u ∈ store.users, u.id < store.nextId) →
            ∀ u ∈ store.users, u.id ≠ store.nextId)) := by
  constructor
  · intro ex hex
    have hname := List.find?_some hex
    refine ⟨by simpa using hname, ?_, ?_, ?_⟩
    · simp [upsertOne, hex]
    · simp [upsertOne, hex]
    · simp [upsertOne, hex]
  · intro hnone
    have hall := List.find?_eq_none.mp hnone
    refine ⟨?_, ?_, ?_, ?_⟩
    · intro u hu
      simpa using hall u hu
    · simp [upsertOne, hnone]
    · simp [upsertOne, hnone]
    · intro hlt u hu
      exact Nat.ne_of_lt (hlt u hu)

/-- Witness for C3: updating John Doe in Scenario A keeps the count, and
inserting Alice into an empty store appends one fresh record. -/
theorem c3_witness :
    (upsertOne storeA { name := "John Doe", salary := 75000 }).users.length
        = storeA.users.length
    ∧ (upsertOne (⟨[], 1⟩ : Store) { name := "Alice", salary := 0 }).users
        = [{ id := 1, name := "Alice", salary := 0 }] :=
  ⟨((c3_upsert_semantics storeA { name := "John Doe", salary := 75000 }).1
      ⟨1, "John Doe", 50000⟩ rfl).2.1,
   ((c3_upsert_semantics ⟨[], 1⟩ { name := "Alice", salary := 0 }).2 rfl).2.1⟩

/-- C4 counterexample: the claimed ingest input cannot exist — the handler
validates and parses every row before running any upsert, so no failing
run mutates the store. -/
theorem c4_counterexample :
    ¬ ∃ (store : Store) (rows : List RawRow) (e : String),
        (uploadCsv store rows).2 = Except.error e
        ∧ (uploadCsv store rows).1 ≠ store := by
  rintro ⟨store, rows, e, h1, h2⟩
  exact h2 (uploadCsv_fst_of_error store rows e h1)

/-- C4 amended: a failed ingest run commits nothing — whenever the upload
handler reports an error, the store after the run equals the store before
it (fail-fast, no partial writes). -/
theorem c4_failed_ingest_unchanged (store : Store) (rows : List RawRow)
    (e : String) (h : (uploadCsv store rows).2 = Except.error e) :
    (uploadCsv store rows).1 = store :=
  uploadCsv_fst_of_error store rows e h

/-- Witness for C4 amended: a batch whose only row has the unparsable
salary "abc" fails and leaves the empty store empty. -/
theorem c4_witness :
    (uploadCsv (⟨[], 1⟩ : Store) [{ name := "x", salary := "abc" }]).2
        = Except.error "Invalid salary format"
    ∧ (uploadCsv (⟨[], 1⟩ : Store) [{ name := "x", salary := "abc" }]).1
        = (⟨[], 1⟩ : Store) :=
  ⟨rfl,
   c4_failed_ingest_unchanged ⟨[], 1⟩ [{ name := "x", salary := "abc" }]
     "Invalid salary format" rfl⟩

/-- C5: an ingest run fails as a whole exactly when some row is missing a
field or has an unparsable salary; a failing run upserts nothing; and a
fully well-formed run succeeds, upserting exactly the rows with
non-negative salary in order while negative-salary rows are skipped without
aborting. -/
theorem c5_structural_failfast (store : Store) (rows : List RawRow) :
    ((∃ e, (uploadCsv store rows).2 = Except.error e)
        ↔ ∃ r ∈ rows, rowMalformed r = true)
    ∧ ((∃ e, (uploadCsv store rows).2 = Except.error e) →
        (uploadCsv store rows).1 = store)
    ∧ ((∀ r ∈ rows, rowMalformed r = false) →
        (uploadCsv store rows).2 = Except.ok (rows.filterMap acceptedRow)
        ∧ (uploadCsv store rows).1
            = processResults store (rows.filterMap acceptedRow)) := by
  refine ⟨?_, ?_, ?_⟩
  · rw [← readRows_error_iff rows]
    unfold uploadCsv
    cases h : readRows rows with
    | error e =>
        exact iff_of_true ⟨e, rfl⟩ ⟨e, rfl⟩
    | ok l =>
        refine iff_of_false ?_ ?_
        · rintro ⟨e, he⟩
          exact Except.noConfusion he
        · rintro ⟨e, he⟩
          exact Except.noConfusion he
  · rintro ⟨e, he⟩
    exact uploadCsv_fst_of_error store rows e he
  · intro hwf
    have hr := readRows_eq_ok rows hwf
    constructor
    · unfold uploadCsv
      rw [hr]
    · unfold uploadCsv
      rw [hr]

/-- Witness for C5 at Scenario B's well-formed prefix: Alice (salary 0.00)
is accepted and Bob (salary -50000) is skipped, and the run succeeds. -/
theorem c5_witness :
    ((uploadCsv (⟨[], 1⟩ : Store)
        [{ name := "Alice", salary := "0.00" }, { name := "Bob", salary := "-50000" }]).2
      = Except.ok
          ([{ name := "Alice", salary := "0.00" },
            { name := "Bob", salary := "-50000" }].filterMap acceptedRow))
    ∧ ([{ name := "Alice", salary := "0.00" },
         { name := "Bob", salary := "-50000" }].filterMap acceptedRow
          = [({ name := "Alice", salary := 0 } : PRow)]) :=
  ⟨((c5_structural_failfast ⟨[], 1⟩
      [{ name := "Alice", salary := "0.00" }, { name := "Bob", salary := "-50000" }]).2.2
      (by decide)).1,
   by decide⟩

/-- C6 counterexample: a create request with a non-empty name and the
number 0 as salary is rejected by the truthiness check, although the claim
says it must be accepted. -/
theorem c6_counterexample :
    createUser (⟨[], 1⟩ : Store) (JsVal.str "Alice") (JsVal.num 0)
      = Except.error "Salary is required and must be a number" := rfl

/-- C6 amended: create succeeds, returning the created record with the
assigned id, exactly when the name is a non-empty string and the salary is
a nonzero number; a zero salary is rejected like a missing one because the
validation uses JS truthiness. -/
theorem c6_create_validation (store : Store) (name salary : JsVal) :
    (∀ s q, name = JsVal.str s → s ≠ "" → salary = JsVal.num q → q ≠ 0 →
       createUser store name salary
         = Except.ok
             ({ id := store.nextId, name := s, salary := q },
              { users := store.users ++ [{ id := store.nextId, name := s, salary := q }],
                nextId := store.nextId + 1 }))
    ∧ ((∃ u st, createUser store name salary = Except.ok (u, st))
        ↔ (∃ s, name = JsVal.str s ∧ s ≠ "") ∧ ∃ q, salary = JsVal.num q ∧ q ≠ 0) := by
  constructor
  · rintro s q rfl hs rfl hq
    simp [createUser, hs, hq, serviceCreateUser]
  · constructor
    · rintro ⟨u, st, h⟩
      cases name with
      | str s =>
          by_cases hs : s = ""
          · simp [createUser, hs] at h
          · cases salary with
            | num q =>
                by_cases hq : q = 0
                · simp [createUser, hs, hq] at h
                · exact ⟨⟨s, rfl, hs⟩, ⟨q, rfl, hq⟩⟩
            | str s2 => simp [createUser, hs] at h
            | undef => simp [createUser, hs] at h
            | other => simp [createUser, hs] at h
      | num q => simp [createUser] at h
      | undef => simp [createUser] at h
      | other => simp [createUser] at h
    · rintro ⟨⟨s, rfl, hs⟩, ⟨q, rfl, hq⟩⟩
      refine ⟨{ id := store.nextId, name := s, salary := q },
        { users := store.users ++ [{ id := store.nextId, name := s, salary := q }],
          nextId := store.nextId + 1 }, ?_⟩
      simp [createUser, hs, hq, serviceCreateUser]

/-- Witness for C6 amended: creating Bob with salary 100 in an empty store
succeeds and returns the record with id 1. -/
theorem c6_witness :
    createUser (⟨[], 1⟩ : Store) (JsVal.str "Bob") (JsVal.num 100)
      = Except.ok
          ({ id := 1, name := "Bob", salary := 100 },
           { users := [{ id := 1, name := "Bob", salary := 100 }], nextId := 2 }) :=
  (c6_create_validation ⟨[], 1⟩ (JsVal.str "Bob") (JsVal.num 100)).1
    "Bob" 100 rfl (by decide) rfl (by decide)

/-- C9: the non-negative-salary store invariant is violated by the create
operation — a create request with salary -1 passes validation (the check
only rejects falsy or non-number salaries) and stores a record with a
negative salary. -/
theorem c9_negative_salary_stored :
    createUser (⟨[], 1⟩ : Store) (JsVal.str "Bob") (JsVal.num (-1))
      = Except.ok
          ({ id := 1, name := "Bob", salary := -1 },
           { users := [{ id := 1, name := "Bob", salary := -1 }], nextId := 2 })
    ∧ ∃ u ∈ [({ id := 1, name := "Bob", salary := -1 } : User)], u.salary < 0 :=
  ⟨rfl, by decide⟩

end GTProj
